import Mathlib

/-!
Shallow embedding of the shotover-proxy transform-chain core:
the Redis RESP2 frame model, the `RedisClusterPortsRewrite` transform
(`rewrite_port`, `is_cluster_slots`, `transform`), the `Tee` transform in its
three consistency behaviors, `TeeBuilder::validate`, the `Sampler` transform,
and the `RedisTimestampTagger` transform loop.

Async `tokio::join!` pairs are modelled by passing the two already-awaited
results (or the chains as functions from a message batch to a result), since
the reconciliation logic is pure in both arguments.
-/

namespace Shotover

/-- `redis_protocol::resp2::prelude::Frame`. Bytes are `List Nat` (u8 values),
integers are `Int` (i64). -/
inductive Frame where
  | SimpleString (s : List Nat)
  | Error (s : List Nat)
  | Integer (i : Int)
  | BulkString (b : List Nat)
  | Array (a : List Frame)
  | Null

/-- `RawFrame` from `src/protocols`: the protocol-tagged parsed frame held in
`Message.original`. Only the `Redis` variant is inspected by the transforms
under verification; `NoneFrame` stands for `RawFrame::None` and witnesses the
non-Redis cases. -/
inductive RawFrame where
  | Redis (f : Frame)
  | NoneFrame

/-- `u8::to_ascii_uppercase`: ASCII `a`..`z` maps to `A`..`Z`, everything else
is unchanged. -/
def asciiUpper (b : Nat) : Nat :=
  if 97 ≤ b ∧ b ≤ 122 then b - 32 else b

/-- The byte string `b"CLUSTER"`. -/
def clusterBytes : List Nat := [67, 76, 85, 83, 84, 69, 82]

/-- The byte string `b"SLOTS"`. -/
def slotsBytes : List Nat := [83, 76, 79, 84, 83]

/-- The per-element map inside `is_cluster_slots`:
`Frame::BulkString(b) => Some(b.to_ascii_uppercase()), _ => None`. -/
def bulkUpper : Frame → Option (List Nat)
  | Frame.BulkString b => some (b.map asciiUpper)
  | _ => none

/-- `is_cluster_slots` from `redis_cluster_ports_rewrite.rs`: on a Redis
`Array`, map each element through `bulkUpper`, `take_while(Option::is_some)`,
unwrap, and compare with `[b"CLUSTER", b"SLOTS"]`; any other frame is `false`.
(`Option.getD []` stands for the `unwrap`, which is safe after the
`take_while`.) -/
def is_cluster_slots (frame : RawFrame) : Bool :=
  match frame with
  | RawFrame.Redis (Frame.Array array) =>
    ((array.map bulkUpper).takeWhile Option.isSome).map (·.getD []) ==
      [clusterBytes, slotsBytes]
  | _ => false

/-- The leading run of `BulkString` elements of a frame list, uppercased,
truncated at the first non-`BulkString` element (the characterization used by
the claim about `is_cluster_slots`). -/
def leadingBulkUpper : List Frame → List (List Nat)
  | Frame.BulkString b :: rest => b.map asciiUpper :: leadingBulkUpper rest
  | _ => []

theorem takeWhile_map_bulkUpper (l : List Frame) :
    ((l.map bulkUpper).takeWhile Option.isSome).map (·.getD []) =
      leadingBulkUpper l := by
  induction l with
  | nil => rfl
  | cons f rest ih =>
    cases f <;> simp [bulkUpper, leadingBulkUpper, List.takeWhile, ih]

/-! ## RedisClusterPortsRewrite -/

/-- Modelled from the spec: the `Message` struct itself lives outside the
provided sources (`src/message.rs` is absent). Per spec §3 a Message carries a
parsed frame and a `modified` flag; `redis_cluster_ports_rewrite.rs` accesses
the field `original` and `timestamp_tagging.rs` accesses `modified`. Only
those two fields matter to the ports-rewrite claims. -/
structure Message where
  original : RawFrame
  modified : Bool

/-- The index-collection pass at the top of `RedisClusterPortsRewrite::transform`:
`messages.iter().enumerate().filter(|(_, m)| is_cluster_slots(&m.original)).map(|(i, _)| i)`.
It runs on the request batch before `call_next_transform`. -/
def clusterSlotsIndices (msgs : List Message) : List Nat :=
  ((msgs.enum.filter fun p => is_cluster_slots p.2.original).map Prod.fst)

/-- One arm of the inner `match (index, &mut frame)` of `rewrite_port`:
indices 0 and 1 (slot start/end) are skipped; any later element must be an
array starting `[BulkString _ip, Integer port, ..]` whose port is overwritten;
otherwise the function bails with the corresponding message. -/
def rewriteNode (new_port : Nat) (index : Nat) (f : Frame) : Except String Frame :=
  match index, f with
  | 0, f => .ok f
  | 1, f => .ok f
  | _, Frame.Array target =>
    match target with
    | Frame.BulkString ip :: Frame.Integer _ :: rest =>
      .ok (Frame.Array (Frame.BulkString ip :: Frame.Integer (Int.ofNat new_port) :: rest))
    | _ => .error "expected host-port in slot map"
  | _, _ => .error "unexpected value in slot map"

/-- The `for (index, mut frame) in slot.iter_mut().enumerate()` loop of
`rewrite_port`, starting at `index`; a `bail!` aborts the whole rewrite. -/
def rewriteSlotAux (new_port : Nat) (index : Nat) : List Frame → Except String (List Frame)
  | [] => .ok []
  | f :: rest =>
    match rewriteNode new_port index f with
    | .error e => .error e
    | .ok f' =>
      match rewriteSlotAux new_port (index + 1) rest with
      | .error e => .error e
      | .ok rest' => .ok (f' :: rest')

/-- One element of the outer array in `rewrite_port`: only elements that are
themselves `Frame::Array` (slot entries) are descended into; anything else is
left untouched. -/
def rewriteEntry (new_port : Nat) (elem : Frame) : Except String Frame :=
  match elem with
  | Frame.Array slot =>
    match rewriteSlotAux new_port 0 slot with
    | .error e => .error e
    | .ok slot' => .ok (Frame.Array slot')
  | other => .ok other

/-- The `for elem in array.iter_mut()` loop of `rewrite_port`. -/
def rewriteEntries (new_port : Nat) : List Frame → Except String (List Frame)
  | [] => .ok []
  | e :: rest =>
    match rewriteEntry new_port e with
    | .error er => .error er
    | .ok e' =>
      match rewriteEntries new_port rest with
      | .error er => .error er
      | .ok rest' => .ok (e' :: rest')

/-- `rewrite_port` from `redis_cluster_ports_rewrite.rs`. A frame that is not
`RawFrame::Redis(Frame::Array(_))` falls through the `if let` and the function
returns `Ok(())` leaving it unchanged. (The Rust version mutates in place and
on `bail!` leaves a partially-mutated frame behind, but the caller then
discards the batch by propagating the error, so modelling the rewrite as
all-or-nothing is faithful to every observable outcome.) -/
def rewrite_port (frame : RawFrame) (new_port : Nat) : Except String RawFrame :=
  match frame with
  | RawFrame.Redis (Frame.Array array) =>
    match rewriteEntries new_port array with
    | .error e => .error e
    | .ok array' => .ok (RawFrame.Redis (Frame.Array array'))
  | other => .ok other

/-- Result of `RedisClusterPortsRewrite::transform`: `Ok`, a propagated
`anyhow` error, or a Rust panic (the unguarded `response[i]` index). -/
inductive Outcome (α : Type) where
  | ok (val : α)
  | fail (e : String)
  | panicked

/-- The `for i in cluster_slots_indices { rewrite_port(&mut response[i].original, ..)? }`
loop: `response[i]` panics when `i` is out of bounds, and a `rewrite_port`
error is returned with the context `failed to rewrite CLUSTER SLOTS port`. -/
def applyRewrites (new_port : Nat) : List Nat → List Message → Outcome (List Message)
  | [], response => .ok response
  | i :: rest, response =>
    if h : i < response.length then
      match rewrite_port (response.get ⟨i, h⟩).original new_port with
      | .error e => .fail ("failed to rewrite CLUSTER SLOTS port: " ++ e)
      | .ok f =>
        applyRewrites new_port rest
          (response.set i { response.get ⟨i, h⟩ with original := f })
    else .panicked

/-- `RedisClusterPortsRewrite::transform`: record the CLUSTER SLOTS indices of
the request batch, call the rest of the chain, then rewrite the recorded
indices of the response batch. `callNext` stands for
`message_wrapper.call_next_transform()`; its error is propagated by `?`. -/
def portsRewriteTransform (new_port : Nat)
    (callNext : List Message → Except String (List Message))
    (msgs : List Message) : Outcome (List Message) :=
  match callNext msgs with
  | .error e => .fail e
  | .ok response => applyRewrites new_port (clusterSlotsIndices msgs) response

/-! Shape predicates used to state the claims about `rewrite_port` (these
follow the spec's description of the slot-map shape; the executable rewrite
above is the translation of the source). -/

/-- A per-node element of a slot entry has the expected shape
`[BulkString ip, Integer port, ..]`. -/
def nodeShapeOk : Frame → Bool
  | Frame.Array (Frame.BulkString _ :: Frame.Integer _ :: _) => true
  | _ => false

/-- The port of a per-node element, when it has the expected shape. -/
def nodePort : Frame → Option Int
  | Frame.Array (Frame.BulkString _ :: Frame.Integer p :: _) => some p
  | _ => none

/-- A slot entry is well-shaped when every element past the first two is a
well-shaped per-node array. -/
def slotEntryShapeOk : Frame → Bool
  | Frame.Array slot => slot.enum.all fun q => decide (q.1 ≤ 1) || nodeShapeOk q.2
  | _ => true

/-- A response frame is well-shaped for `rewrite_port`: if it is a Redis
array, every slot-entry element that is itself an array is well-shaped
(non-array elements and non-array frames are ignored by the rewrite). -/
def frameShapeOk : RawFrame → Bool
  | RawFrame.Redis (Frame.Array entries) => entries.all slotEntryShapeOk
  | _ => true

/-- Every per-node element (past the first two) of a slot entry carries
port `P`. -/
def slotEntryPortsSet (P : Int) : Frame → Bool
  | Frame.Array slot => slot.enum.all fun q => decide (q.1 ≤ 1) || nodePort q.2 == some P
  | _ => true

/-- Every per-node array in every slot entry of the frame carries port `P`. -/
def allPortsSet (P : Int) : RawFrame → Bool
  | RawFrame.Redis (Frame.Array entries) => entries.all (slotEntryPortsSet P)
  | _ => true

/-- Success test for `Except` results (a `Result::is_ok`). -/
def exceptOk {ε α : Type _} : Except ε α → Bool
  | .ok _ => true
  | .error _ => false

theorem exceptOk_ok {ε α : Type _} (a : α) : exceptOk (ε := ε) (.ok a) = true := rfl

theorem exceptOk_error {ε α : Type _} (e : ε) :
    exceptOk (α := α) (.error e) = false := rfl

theorem rewriteNode_le_one (p i : Nat) (f : Frame) (h : i ≤ 1) :
    rewriteNode p i f = .ok f := by
  match i, h with
  | 0, _ => simp [rewriteNode]
  | 1, _ => simp [rewriteNode]

theorem rewriteNode_isOk (p i : Nat) (f : Frame) :
    exceptOk (rewriteNode p i f) = (decide (i ≤ 1) || nodeShapeOk f) := by
  unfold rewriteNode
  split
  · simp [exceptOk]
  · simp [exceptOk]
  · rename_i i' target hne h0 h1
    split
    · rename_i ip q rest
      simp [exceptOk, nodeShapeOk]
    · rename_i hform
      have h0' : i ≠ 0 := h0
      have h1' : i ≠ 1 := h1
      have hi : decide (i ≤ 1) = false := by
        simp only [decide_eq_false_iff_not]
        omega
      rw [exceptOk_error, hi, Bool.false_or]
      cases hne with
      | nil => rfl
      | cons a t =>
        cases a <;> try rfl
        case BulkString b =>
          cases t with
          | nil => rfl
          | cons a2 t2 =>
            cases a2 <;> try rfl
            case Integer q => exact absurd rfl (hform b q t2)
  · rename_i j g h0 h1 hnotarr
    have h0' : i ≠ 0 := h0
    have h1' : i ≠ 1 := h1
    have hi : decide (i ≤ 1) = false := by
      simp only [decide_eq_false_iff_not]
      omega
    rw [exceptOk_error, hi, Bool.false_or]
    cases f <;> try rfl
    case Array t => exact absurd rfl (hnotarr t)

theorem rewriteNode_ok_port (p i : Nat) (f f' : Frame) (h2 : 2 ≤ i)
    (h : rewriteNode p i f = .ok f') : nodePort f' = some (Int.ofNat p) := by
  unfold rewriteNode at h
  split at h
  · omega
  · omega
  · split at h
    · rename_i ip q rest
      cases h
      rfl
    · cases h
  · cases h

theorem rewriteNode_ok_le_one (p i : Nat) (f f' : Frame) (h1 : i ≤ 1)
    (h : rewriteNode p i f = .ok f') : f' = f := by
  rw [rewriteNode_le_one p i f h1] at h
  cases h
  rfl

theorem rewriteSlotAux_isOk (p : Nat) (l : List Frame) : ∀ i : Nat,
    exceptOk (rewriteSlotAux p i l) =
      ((l.enumFrom i).all fun q => decide (q.1 ≤ 1) || nodeShapeOk q.2) := by
  induction l with
  | nil => intro i; rfl
  | cons f rest ih =>
    intro i
    have hfirst := rewriteNode_isOk p i f
    cases hn : rewriteNode p i f with
    | error e =>
      rw [hn] at hfirst
      rw [exceptOk_error] at hfirst
      simp [rewriteSlotAux, hn, exceptOk_error, List.enumFrom, ← hfirst]
    | ok f' =>
      rw [hn, exceptOk_ok] at hfirst
      cases hr : rewriteSlotAux p (i + 1) rest with
      | error e2 =>
        have h2 := ih (i + 1)
        rw [hr, exceptOk_error] at h2
        simp [rewriteSlotAux, hn, hr, exceptOk_error, List.enumFrom, ← hfirst, ← h2]
      | ok rest' =>
        have h2 := ih (i + 1)
        rw [hr, exceptOk_ok] at h2
        simp [rewriteSlotAux, hn, hr, exceptOk_ok, List.enumFrom, ← hfirst, ← h2]

theorem rewriteSlotAux_ok_ports (p : Nat) (l : List Frame) : ∀ (i : Nat) (l' : List Frame),
    rewriteSlotAux p i l = .ok l' →
      ((l'.enumFrom i).all fun q => decide (q.1 ≤ 1) || nodePort q.2 == some (Int.ofNat p)) = true := by
  induction l with
  | nil =>
    intro i l' h
    cases h
    rfl
  | cons f rest ih =>
    intro i l' h
    rw [rewriteSlotAux] at h
    cases hn : rewriteNode p i f with
    | error e => rw [hn] at h; cases h
    | ok f' =>
      rw [hn] at h
      cases hr : rewriteSlotAux p (i + 1) rest with
      | error e2 => rw [hr] at h; cases h
      | ok rest' =>
        rw [hr] at h
        cases h
        have hrest := ih (i + 1) rest' hr
        simp only [List.enumFrom, List.all_cons, hrest, Bool.and_true]
        by_cases hle : i ≤ 1
        · simp [hle]
        · have hport := rewriteNode_ok_port p i f f' (by omega) hn
          simp [hport]

theorem enum_eq_enumFrom {α : Type _} (l : List α) : l.enum = l.enumFrom 0 := rfl

theorem rewriteEntry_isOk (p : Nat) (e : Frame) :
    exceptOk (rewriteEntry p e) = slotEntryShapeOk e := by
  cases e <;> try rfl
  case Array slot =>
    have h := rewriteSlotAux_isOk p slot 0
    cases hs : rewriteSlotAux p 0 slot with
    | error e2 =>
      rw [hs, exceptOk_error] at h
      simp [rewriteEntry, hs, exceptOk_error, slotEntryShapeOk, enum_eq_enumFrom, ← h]
    | ok slot' =>
      rw [hs, exceptOk_ok] at h
      simp [rewriteEntry, hs, exceptOk_ok, slotEntryShapeOk, enum_eq_enumFrom, ← h]

theorem rewriteEntry_ok_ports (p : Nat) (e e' : Frame) (h : rewriteEntry p e = .ok e') :
    slotEntryPortsSet (Int.ofNat p) e' = true := by
  cases e with
  | Array slot =>
    cases hs : rewriteSlotAux p 0 slot with
    | error e2 => rw [rewriteEntry, hs] at h; cases h
    | ok slot' =>
      rw [rewriteEntry, hs] at h
      cases h
      simp only [slotEntryPortsSet, enum_eq_enumFrom]
      exact rewriteSlotAux_ok_ports p slot 0 slot' hs
  | SimpleString s => cases h; rfl
  | Error s => cases h; rfl
  | Integer q => cases h; rfl
  | BulkString b => cases h; rfl
  | Null => cases h; rfl

theorem rewriteEntries_isOk (p : Nat) (l : List Frame) :
    exceptOk (rewriteEntries p l) = l.all slotEntryShapeOk := by
  induction l with
  | nil => rfl
  | cons e rest ih =>
    have he := rewriteEntry_isOk p e
    cases hn : rewriteEntry p e with
    | error er =>
      rw [hn, exceptOk_error] at he
      simp [rewriteEntries, hn, exceptOk_error, ← he]
    | ok e' =>
      rw [hn, exceptOk_ok] at he
      cases hr : rewriteEntries p rest with
      | error er =>
        rw [hr, exceptOk_error] at ih
        simp [rewriteEntries, hn, hr, exceptOk_error, ← he, ← ih]
      | ok rest' =>
        rw [hr, exceptOk_ok] at ih
        simp [rewriteEntries, hn, hr, exceptOk_ok, ← he, ← ih]

theorem rewriteEntries_ok_ports (p : Nat) (l : List Frame) : ∀ l' : List Frame,
    rewriteEntries p l = .ok l' → l'.all (slotEntryPortsSet (Int.ofNat p)) = true := by
  induction l with
  | nil =>
    intro l' h
    cases h
    rfl
  | cons e rest ih =>
    intro l' h
    rw [rewriteEntries] at h
    cases hn : rewriteEntry p e with
    | error er => rw [hn] at h; cases h
    | ok e' =>
      rw [hn] at h
      cases hr : rewriteEntries p rest with
      | error er => rw [hr] at h; cases h
      | ok rest' =>
        rw [hr] at h
        cases h
        rw [List.all_cons, rewriteEntry_ok_ports p e e' hn, Bool.true_and]
        exact ih rest' hr

theorem rewrite_port_isOk (f : RawFrame) (p : Nat) :
    exceptOk (rewrite_port f p) = frameShapeOk f := by
  cases f with
  | NoneFrame => rfl
  | Redis fr =>
    cases fr <;> try rfl
    case Array entries =>
      have h := rewriteEntries_isOk p entries
      cases hn : rewriteEntries p entries with
      | error er =>
        rw [hn, exceptOk_error] at h
        simp [rewrite_port, hn, exceptOk_error, frameShapeOk, ← h]
      | ok entries' =>
        rw [hn, exceptOk_ok] at h
        simp [rewrite_port, hn, exceptOk_ok, frameShapeOk, ← h]

theorem rewrite_port_ok_ports (f : RawFrame) (p : Nat) (f' : RawFrame)
    (h : rewrite_port f p = .ok f') : allPortsSet (Int.ofNat p) f' = true := by
  cases f with
  | NoneFrame => cases h; rfl
  | Redis fr =>
    cases fr with
    | Array entries =>
      cases hn : rewriteEntries p entries with
      | error er => rw [rewrite_port, hn] at h; cases h
      | ok entries' =>
        rw [rewrite_port, hn] at h
        cases h
        simp only [allPortsSet]
        exact rewriteEntries_ok_ports p entries entries' hn
    | SimpleString s => cases h; rfl
    | Error s => cases h; rfl
    | Integer q => cases h; rfl
    | BulkString b => cases h; rfl
    | Null => cases h; rfl

theorem exceptOk_eq_false {ε α : Type _} {x : Except ε α} (h : exceptOk x = false) :
    ∃ e, x = .error e := by
  cases x with
  | error e => exact ⟨e, rfl⟩
  | ok a => exact absurd h (by simp [exceptOk])

theorem exceptOk_eq_true {ε α : Type _} {x : Except ε α} (h : exceptOk x = true) :
    ∃ a, x = .ok a := by
  cases x with
  | error e => exact absurd h (by simp [exceptOk])
  | ok a => exact ⟨a, rfl⟩

theorem mem_clusterSlotsIndices (msgs : List Message) (i : Nat) :
    i ∈ clusterSlotsIndices msgs ↔
      ∃ m, msgs[i]? = some m ∧ is_cluster_slots m.original = true := by
  constructor
  · intro h
    simp only [clusterSlotsIndices, List.mem_map] at h
    obtain ⟨⟨j, m⟩, hmem, rfl⟩ := h
    rw [List.mem_filter] at hmem
    obtain ⟨henum, hcs⟩ := hmem
    rw [List.mk_mem_enum_iff_getElem?] at henum
    exact ⟨m, henum, hcs⟩
  · intro ⟨m, hget, hcs⟩
    simp only [clusterSlotsIndices, List.mem_map]
    refine ⟨(i, m), ?_, rfl⟩
    rw [List.mem_filter, List.mk_mem_enum_iff_getElem?]
    exact ⟨hget, hcs⟩

theorem clusterSlotsIndices_lt (msgs : List Message) (i : Nat)
    (h : i ∈ clusterSlotsIndices msgs) : i < msgs.length := by
  obtain ⟨m, hget, -⟩ := (mem_clusterSlotsIndices msgs i).1 h
  exact (List.getElem?_eq_some_iff.1 hget).1

theorem clusterSlotsIndices_nodup (msgs : List Message) :
    (clusterSlotsIndices msgs).Nodup := by
  have h1 : (msgs.enum.filter fun p => is_cluster_slots p.2.original).Sublist msgs.enum :=
    List.filter_sublist _
  have h2 : ((msgs.enum.filter fun p => is_cluster_slots p.2.original).map Prod.fst).Sublist
      (msgs.enum.map Prod.fst) := h1.map Prod.fst
  have h3 : (msgs.enum.map Prod.fst).Nodup := by
    rw [List.enum_map_fst]
    exact List.nodup_range _
  exact h2.nodup h3

theorem applyRewrites_panic_first (p i : Nat) (rest : List Nat) (resp : List Message)
    (h : resp.length ≤ i) : applyRewrites p (i :: rest) resp = .panicked := by
  rw [applyRewrites, dif_neg (by omega)]

theorem applyRewrites_no_panic (p : Nat) (idxs : List Nat) : ∀ resp : List Message,
    (∀ i ∈ idxs, i < resp.length) → applyRewrites p idxs resp ≠ Outcome.panicked := by
  induction idxs with
  | nil =>
    intro resp _ hcontra
    rw [applyRewrites] at hcontra
    exact Outcome.noConfusion hcontra
  | cons i rest ih =>
    intro resp hb hcontra
    have hi : i < resp.length := hb i (List.mem_cons_self i rest)
    rw [applyRewrites, dif_pos hi] at hcontra
    cases hf : rewrite_port (resp.get ⟨i, hi⟩).original p with
    | error e =>
      rw [hf] at hcontra
      exact Outcome.noConfusion hcontra
    | ok f =>
      rw [hf] at hcontra
      refine ih _ ?_ hcontra
      intro j hj
      rw [List.length_set]
      exact hb j (List.mem_cons_of_mem i hj)

theorem applyRewrites_ok (p : Nat) (idxs : List Nat) : ∀ resp : List Message,
    (∀ i ∈ idxs, i < resp.length) → idxs.Nodup →
    (∀ i m, i ∈ idxs → resp[i]? = some m → frameShapeOk m.original = true) →
    ∃ res, applyRewrites p idxs resp = .ok res ∧ res.length = resp.length ∧
      (∀ j, j ∉ idxs → res[j]? = resp[j]?) ∧
      (∀ i m, i ∈ idxs → resp[i]? = some m →
        ∃ m', res[i]? = some m' ∧ allPortsSet (Int.ofNat p) m'.original = true ∧
          m'.modified = m.modified) := by
  induction idxs with
  | nil =>
    intro resp _ _ _
    refine ⟨resp, by rw [applyRewrites], rfl, fun j _ => rfl, fun i m hmem _ => absurd hmem (by simp)⟩
  | cons i rest ih =>
    intro resp hb hnd hshape
    have hi : i < resp.length := hb i (List.mem_cons_self i rest)
    have hmget : resp[i]? = some (resp.get ⟨i, hi⟩) := by
      rw [List.getElem?_eq_getElem hi]
      rfl
    have hshapei : frameShapeOk (resp.get ⟨i, hi⟩).original = true :=
      hshape i _ (List.mem_cons_self i rest) hmget
    have hok : exceptOk (rewrite_port (resp.get ⟨i, hi⟩).original p) = true := by
      rw [rewrite_port_isOk]
      exact hshapei
    obtain ⟨f', hf⟩ := exceptOk_eq_true hok
    rw [List.nodup_cons] at hnd
    obtain ⟨hnotin, hndrest⟩ := hnd
    set m₀ : Message := { resp.get ⟨i, hi⟩ with original := f' } with hm₀
    have hlen' : (resp.set i m₀).length = resp.length := List.length_set ..
    obtain ⟨res, hres, hlen, hunch, hports⟩ := ih (resp.set i m₀)
      (by
        intro j hj
        rw [hlen']
        exact hb j (List.mem_cons_of_mem i hj))
      hndrest
      (by
        intro j m hj hget
        have hne : i ≠ j := fun he => hnotin (he ▸ hj)
        rw [List.getElem?_set_ne hne] at hget
        exact hshape j m (List.mem_cons_of_mem i hj) hget)
    refine ⟨res, ?_, ?_, ?_, ?_⟩
    · rw [applyRewrites, dif_pos hi, hf]
      exact hres
    · rw [hlen, hlen']
    · intro j hj
      have hji : j ≠ i := fun he => hj (he ▸ List.mem_cons_self i rest)
      have hjrest : j ∉ rest := fun hc => hj (List.mem_cons_of_mem i hc)
      rw [hunch j hjrest, List.getElem?_set_ne (Ne.symm hji)]
    · intro k m hk hkget
      rcases List.mem_cons.1 hk with hki | hkrest
      · subst hki
        have hm : m = resp.get ⟨k, hi⟩ := by
          rw [hmget] at hkget
          exact (Option.some_inj.1 hkget).symm
        refine ⟨m₀, ?_, ?_, ?_⟩
        · rw [hunch k hnotin]
          rw [List.getElem?_set_self', List.getElem?_eq_getElem hi]
          rfl
        · rw [hm₀]
          exact rewrite_port_ok_ports _ p _ hf
        · rw [hm₀, hm]
      · have hne : i ≠ k := fun he => hnotin (he ▸ hkrest)
        have hget' : (resp.set i m₀)[k]? = some m := by
          rw [List.getElem?_set_ne hne]
          exact hkget
        exact hports k m hkrest hget'

theorem applyRewrites_fail (p : Nat) (idxs : List Nat) : ∀ resp : List Message,
    (∀ i ∈ idxs, i < resp.length) → idxs.Nodup →
    (∃ i m, i ∈ idxs ∧ resp[i]? = some m ∧ frameShapeOk m.original = false) →
    ∃ e, applyRewrites p idxs resp = .fail e := by
  induction idxs with
  | nil =>
    intro resp _ _ ⟨i, m, hmem, _, _⟩
    exact absurd hmem (by simp)
  | cons i rest ih =>
    intro resp hb hnd ⟨k, m, hk, hkget, hkshape⟩
    have hi : i < resp.length := hb i (List.mem_cons_self i rest)
    have hmget : resp[i]? = some (resp.get ⟨i, hi⟩) := by
      rw [List.getElem?_eq_getElem hi]
      rfl
    rw [List.nodup_cons] at hnd
    obtain ⟨hnotin, hndrest⟩ := hnd
    cases hsh : frameShapeOk (resp.get ⟨i, hi⟩).original with
    | false =>
      have hbad : exceptOk (rewrite_port (resp.get ⟨i, hi⟩).original p) = false := by
        rw [rewrite_port_isOk]
        exact hsh
      obtain ⟨e, he⟩ := exceptOk_eq_false hbad
      refine ⟨"failed to rewrite CLUSTER SLOTS port: " ++ e, ?_⟩
      rw [applyRewrites, dif_pos hi, he]
    | true =>
      have hok : exceptOk (rewrite_port (resp.get ⟨i, hi⟩).original p) = true := by
        rw [rewrite_port_isOk]
        exact hsh
      obtain ⟨f', hf⟩ := exceptOk_eq_true hok
      have hki : k ≠ i := by
        intro he
        subst he
        rw [hmget] at hkget
        rw [Option.some_inj.1 hkget] at hsh
        rw [hkshape] at hsh
        exact Bool.noConfusion hsh
      have hkrest : k ∈ rest := (List.mem_cons.1 hk).resolve_left hki
      set m₀ : Message := { resp.get ⟨i, hi⟩ with original := f' } with hm₀
      have hlen' : (resp.set i m₀).length = resp.length := List.length_set ..
      obtain ⟨e, he⟩ := ih (resp.set i m₀)
        (by
          intro j hj
          rw [hlen']
          exact hb j (List.mem_cons_of_mem i hj))
        hndrest
        ⟨k, m, hkrest, by rw [List.getElem?_set_ne (Ne.symm hki)]; exact hkget, hkshape⟩
      refine ⟨e, ?_⟩
      rw [applyRewrites, dif_pos hi, hf]
      exact he

theorem applyRewrites_modified (p : Nat) (idxs : List Nat) : ∀ resp res : List Message,
    applyRewrites p idxs resp = .ok res →
    ∀ j : Nat, res[j]?.map Message.modified = resp[j]?.map Message.modified := by
  induction idxs with
  | nil =>
    intro resp res h j
    rw [applyRewrites] at h
    cases h
    rfl
  | cons i rest ih =>
    intro resp res h j
    rw [applyRewrites] at h
    split at h
    · rename_i hi
      cases hf : rewrite_port (resp.get ⟨i, hi⟩).original p with
      | error e =>
        rw [hf] at h
        exact Outcome.noConfusion h
      | ok f' =>
        rw [hf] at h
        have hrec := ih _ _ h j
        rw [hrec]
        by_cases hji : i = j
        · subst hji
          rw [List.getElem?_set_self', List.getElem?_eq_getElem hi]
          rfl
        · rw [List.getElem?_set_ne hji]
    · exact Outcome.noConfusion h

theorem portsRewriteTransform_next_ok (P : Nat)
    (callNext : List Message → Except String (List Message)) (msgs response : List Message)
    (hcall : callNext msgs = .ok response) :
    portsRewriteTransform P callNext msgs =
      applyRewrites P (clusterSlotsIndices msgs) response := by
  unfold portsRewriteTransform
  rw [hcall]

/-- A frame that is a CLUSTER SLOTS request in the narrow sense the spec
describes: exactly the two-element array `[CLUSTER, SLOTS]` up to ASCII case. -/
def isTwoArgClusterSlots : RawFrame → Bool
  | RawFrame.Redis (Frame.Array [Frame.BulkString a, Frame.BulkString b]) =>
    (a.map asciiUpper == clusterBytes) && (b.map asciiUpper == slotsBytes)
  | _ => false

theorem isTwoArgClusterSlots_imp (f : RawFrame) (h : isTwoArgClusterSlots f = true) :
    is_cluster_slots f = true := by
  unfold isTwoArgClusterSlots at h
  split at h
  · rename_i a b
    rw [Bool.and_eq_true, beq_iff_eq, beq_iff_eq] at h
    simp only [is_cluster_slots, takeWhile_map_bulkUpper, leadingBulkUpper, h.1, h.2]
    exact beq_self_eq_true _
  · exact Bool.noConfusion h

/-- A `CLUSTER SLOTS` request message (mixed ASCII case, exercising the
case-insensitive match): `["cluster", "SLOTS"]`. -/
def clusterSlotsRequestMsg : Message :=
  { original := RawFrame.Redis (Frame.Array
      [Frame.BulkString [99, 108, 117, 115, 116, 101, 114],
       Frame.BulkString [83, 76, 79, 84, 83]]),
    modified := false }

/-- A miniature well-shaped CLUSTER SLOTS response: one slot range 0..16383
served by node `10.0.0.1:6379` with a node id. -/
def slotMapFrame : Frame :=
  Frame.Array [Frame.Array
    [Frame.Integer 0, Frame.Integer 16383,
     Frame.Array
       [Frame.BulkString [49, 48, 46, 48, 46, 48, 46, 49], Frame.Integer 6379,
        Frame.BulkString [97, 98, 99]]]]

def slotMapMsg : Message := { original := RawFrame.Redis slotMapFrame, modified := false }

/-- The same slot map after rewriting the port to 2004. -/
def slotMapFrame2004 : Frame :=
  Frame.Array [Frame.Array
    [Frame.Integer 0, Frame.Integer 16383,
     Frame.Array
       [Frame.BulkString [49, 48, 46, 48, 46, 48, 46, 49], Frame.Integer 2004,
        Frame.BulkString [97, 98, 99]]]]

/-- A response whose slot entry holds a bare integer where a per-node array is
expected (`rewrite_port` bails on it). -/
def badSlotMapMsg : Message :=
  { original := RawFrame.Redis (Frame.Array
      [Frame.Array [Frame.Integer 0, Frame.Integer 1, Frame.Integer 2]]),
    modified := false }

/-- C9: `is_cluster_slots` matches on the BulkString prefix only: it returns
true exactly when the frame is a Redis Array whose leading run of BulkString
elements (truncated at the first non-BulkString element), uppercased, equals
`["CLUSTER", "SLOTS"]`; in particular `[BulkString "cluster", BulkString
"slots", Integer 1]` is classified as a CLUSTER SLOTS request even though it
has three elements, while any non-Array frame, or an array with a third
BulkString argument, is not. -/
theorem c9_is_cluster_slots_prefix_only :
    (∀ f : RawFrame, is_cluster_slots f = true ↔
      ∃ a, f = RawFrame.Redis (Frame.Array a) ∧
        leadingBulkUpper a = [clusterBytes, slotsBytes]) ∧
    is_cluster_slots (RawFrame.Redis (Frame.Array
      [Frame.BulkString [99, 108, 117, 115, 116, 101, 114],
       Frame.BulkString [115, 108, 111, 116, 115],
       Frame.Integer 1])) = true ∧
    (∀ f : RawFrame, (∀ a, f ≠ RawFrame.Redis (Frame.Array a)) →
      is_cluster_slots f = false) ∧
    (∀ b₁ b₂ b₃ : List Nat, ∀ rest : List Frame,
      is_cluster_slots (RawFrame.Redis (Frame.Array
        (Frame.BulkString b₁ :: Frame.BulkString b₂ :: Frame.BulkString b₃ :: rest))) = false) := by
  refine ⟨?_, rfl, ?_, ?_⟩
  · intro f
    cases f with
    | NoneFrame => simp [is_cluster_slots]
    | Redis fr =>
      cases fr with
      | Array a =>
        simp only [is_cluster_slots, takeWhile_map_bulkUpper, beq_iff_eq]
        constructor
        · intro h
          exact ⟨a, rfl, h⟩
        · rintro ⟨a', heq, h⟩
          rw [Frame.Array.inj (RawFrame.Redis.inj heq)]
          exact h
      | SimpleString s => simp [is_cluster_slots]
      | Error s => simp [is_cluster_slots]
      | Integer q => simp [is_cluster_slots]
      | BulkString b => simp [is_cluster_slots]
      | Null => simp [is_cluster_slots]
  · intro f hf
    cases f with
    | NoneFrame => rfl
    | Redis fr =>
      cases fr with
      | Array a => exact absurd rfl (hf a)
      | SimpleString s => rfl
      | Error s => rfl
      | Integer q => rfl
      | BulkString b => rfl
      | Null => rfl
  · intro b₁ b₂ b₃ rest
    simp only [is_cluster_slots]
    rw [takeWhile_map_bulkUpper]
    simp [leadingBulkUpper]

theorem c9_witness :
    is_cluster_slots (RawFrame.Redis Frame.Null) = false ∧
    is_cluster_slots clusterSlotsRequestMsg.original = true :=
  ⟨c9_is_cluster_slots_prefix_only.2.2.1 (RawFrame.Redis Frame.Null)
      (fun a h => Frame.noConfusion (RawFrame.Redis.inj h)),
   (c9_is_cluster_slots_prefix_only.1 clusterSlotsRequestMsg.original).2
      ⟨_, rfl, by decide⟩⟩

/-- C4: `RedisClusterPortsRewrite` with port P records the index of every
inbound CLUSTER SLOTS request (case-insensitive two-argument array) before
calling next; in the returned batch, for each recorded index, every per-node
`[ip, port, ..]` array inside every slot entry has its port overwritten with
P (other indices are untouched), and a structured error is returned when some
recorded response has a slot-entry element past the first two that is not an
array of the form `[BulkString, Integer, ..]`. Stated under the chain
contract of one response per request. -/
theorem c4_ports_rewrite_transform (P : Nat)
    (callNext : List Message → Except String (List Message))
    (msgs response : List Message)
    (hcall : callNext msgs = .ok response)
    (hlen : response.length = msgs.length) :
    (∀ (i : Nat) (m : Message), msgs[i]? = some m → isTwoArgClusterSlots m.original = true →
      i ∈ clusterSlotsIndices msgs) ∧
    ((∀ (i : Nat) (m : Message), i ∈ clusterSlotsIndices msgs → response[i]? = some m →
        frameShapeOk m.original = true) →
      ∃ res, portsRewriteTransform P callNext msgs = .ok res ∧
        (∀ (i : Nat) (m : Message), i ∈ clusterSlotsIndices msgs → response[i]? = some m →
          ∃ m', res[i]? = some m' ∧ allPortsSet (Int.ofNat P) m'.original = true) ∧
        (∀ j : Nat, j ∉ clusterSlotsIndices msgs → res[j]? = response[j]?)) ∧
    ((∃ (i : Nat) (m : Message), i ∈ clusterSlotsIndices msgs ∧ response[i]? = some m ∧
        frameShapeOk m.original = false) →
      ∃ e, portsRewriteTransform P callNext msgs = .fail e) := by
  have hb : ∀ i ∈ clusterSlotsIndices msgs, i < response.length := by
    intro i hi
    rw [hlen]
    exact clusterSlotsIndices_lt msgs i hi
  refine ⟨?_, ?_, ?_⟩
  · intro i m hget hcs
    exact (mem_clusterSlotsIndices msgs i).2 ⟨m, hget, isTwoArgClusterSlots_imp _ hcs⟩
  · intro hshape
    obtain ⟨res, hres, hlen2, hunch, hports⟩ :=
      applyRewrites_ok P (clusterSlotsIndices msgs) response hb
        (clusterSlotsIndices_nodup msgs) hshape
    refine ⟨res, ?_, ?_, hunch⟩
    · rw [portsRewriteTransform_next_ok P callNext msgs response hcall]
      exact hres
    · intro i m hi hm
      obtain ⟨m', h1, h2, h3⟩ := hports i m hi hm
      exact ⟨m', h1, h2⟩
  · intro hex
    obtain ⟨e, he⟩ := applyRewrites_fail P (clusterSlotsIndices msgs) response hb
      (clusterSlotsIndices_nodup msgs) hex
    refine ⟨e, ?_⟩
    rw [portsRewriteTransform_next_ok P callNext msgs response hcall]
    exact he

theorem c4_witness :
    ∃ res, portsRewriteTransform 2004 (fun _ => Except.ok [slotMapMsg])
        [clusterSlotsRequestMsg] = .ok res ∧
      (∀ (i : Nat) (m : Message), i ∈ clusterSlotsIndices [clusterSlotsRequestMsg] →
        ([slotMapMsg])[i]? = some m →
        ∃ m', res[i]? = some m' ∧ allPortsSet (Int.ofNat 2004) m'.original = true) ∧
      (∀ j : Nat, j ∉ clusterSlotsIndices [clusterSlotsRequestMsg] →
        res[j]? = ([slotMapMsg])[j]?) :=
  (c4_ports_rewrite_transform 2004 (fun _ => Except.ok [slotMapMsg]) [clusterSlotsRequestMsg]
      [slotMapMsg] rfl rfl).2.1
    (by
      intro i m hi hm
      rw [show clusterSlotsIndices [clusterSlotsRequestMsg] = [0] from rfl,
        List.mem_singleton] at hi
      subst hi
      rw [show ([slotMapMsg])[(0 : Nat)]? = some slotMapMsg from rfl] at hm
      rw [← Option.some_inj.1 hm]
      rfl)

/-- C5 counterexample: the ports-rewrite transform does not set the rewritten
message's `modified` flag: running it on a CLUSTER SLOTS request with a
well-shaped response whose `modified` is false yields a rewritten message
whose `modified` is still false. -/
theorem c5_counterexample :
    ¬ (∀ (P : Nat) (callNext : List Message → Except String (List Message))
        (msgs res : List Message),
        portsRewriteTransform P callNext msgs = .ok res →
        ∀ i : Nat, i ∈ clusterSlotsIndices msgs →
        ∀ m, res[i]? = some m → m.modified = true) := by
  intro hclaim
  have hrun : portsRewriteTransform 2004 (fun _ => Except.ok [slotMapMsg])
      [clusterSlotsRequestMsg] =
      .ok [{ original := RawFrame.Redis slotMapFrame2004, modified := false }] := rfl
  have hfalse := hclaim 2004 (fun _ => Except.ok [slotMapMsg]) [clusterSlotsRequestMsg]
      [{ original := RawFrame.Redis slotMapFrame2004, modified := false }] hrun 0
      (by
        rw [show clusterSlotsIndices [clusterSlotsRequestMsg] = [0] from rfl]
        exact List.mem_singleton.2 rfl)
      { original := RawFrame.Redis slotMapFrame2004, modified := false } rfl
  exact Bool.noConfusion hfalse

/-- C5 amended: `RedisClusterPortsRewrite::transform` rewrites the ports in
the response frame in place but never touches the `modified` flag: for every
run returning `Ok`, each returned message's `modified` flag equals that of
the corresponding downstream response message. -/
theorem c5_modified_unchanged (P : Nat)
    (callNext : List Message → Except String (List Message))
    (msgs response res : List Message)
    (hcall : callNext msgs = .ok response)
    (hok : portsRewriteTransform P callNext msgs = .ok res) :
    ∀ j : Nat, res[j]?.map Message.modified = response[j]?.map Message.modified := by
  rw [portsRewriteTransform_next_ok P callNext msgs response hcall] at hok
  exact applyRewrites_modified P (clusterSlotsIndices msgs) response res hok

theorem c5_witness :
    ([({ original := RawFrame.Redis slotMapFrame2004, modified := false } : Message)])[(0 : Nat)]?.map
        Message.modified = ([slotMapMsg])[(0 : Nat)]?.map Message.modified :=
  c5_modified_unchanged 2004 (fun _ => Except.ok [slotMapMsg]) [clusterSlotsRequestMsg]
    [slotMapMsg] [{ original := RawFrame.Redis slotMapFrame2004, modified := false }] rfl rfl 0

/-- C10 counterexample: it is not true that the transform panics whenever some
message at index `i` is a CLUSTER SLOTS request and the response batch length
is ≤ i: with requests `[CLUSTER SLOTS, CLUSTER SLOTS]` and a single
mis-shaped response, the structured error from the earlier recorded index is
returned before the out-of-bounds access at index 1 is reached. -/
theorem c10_counterexample :
    ¬ (∀ (P : Nat) (callNext : List Message → Except String (List Message))
        (msgs response : List Message) (i : Nat) (m : Message),
        callNext msgs = .ok response →
        msgs[i]? = some m → is_cluster_slots m.original = true →
        response.length ≤ i →
        portsRewriteTransform P callNext msgs = Outcome.panicked) := by
  intro hclaim
  have hpan := hclaim 2004 (fun _ => Except.ok [badSlotMapMsg])
      [clusterSlotsRequestMsg, clusterSlotsRequestMsg] [badSlotMapMsg] 1 clusterSlotsRequestMsg
      rfl rfl rfl (by decide)
  rw [show portsRewriteTransform 2004 (fun _ => Except.ok [badSlotMapMsg])
      [clusterSlotsRequestMsg, clusterSlotsRequestMsg] =
      Outcome.fail "failed to rewrite CLUSTER SLOTS port: unexpected value in slot map"
    from rfl] at hpan
  exact Outcome.noConfusion hpan

/-- C10 amended: the response indexing in `RedisClusterPortsRewrite::transform`
is unguarded: whenever the first recorded CLUSTER SLOTS index is `i` and
`call_next_transform` returns a batch of length ≤ i, the transform panics
(out-of-bounds `response[i]`); under the one-response-per-request chain
contract it never panics. -/
theorem c10_unguarded_indexing (P : Nat)
    (callNext : List Message → Except String (List Message))
    (msgs response : List Message)
    (hcall : callNext msgs = .ok response) :
    (∀ (i : Nat) (rest : List Nat), clusterSlotsIndices msgs = i :: rest →
      response.length ≤ i → portsRewriteTransform P callNext msgs = Outcome.panicked) ∧
    (response.length = msgs.length →
      portsRewriteTransform P callNext msgs ≠ Outcome.panicked) := by
  constructor
  · intro i rest hidx hle
    rw [portsRewriteTransform_next_ok P callNext msgs response hcall, hidx]
    exact applyRewrites_panic_first P i rest response hle
  · intro hlen
    rw [portsRewriteTransform_next_ok P callNext msgs response hcall]
    apply applyRewrites_no_panic
    intro i hi
    rw [hlen]
    exact clusterSlotsIndices_lt msgs i hi

theorem c10_witness :
    portsRewriteTransform 2004 (fun _ => Except.ok ([] : List Message))
        [clusterSlotsRequestMsg] = Outcome.panicked ∧
    portsRewriteTransform 2004 (fun _ => Except.ok [slotMapMsg]) [slotMapMsg] ≠
      Outcome.panicked :=
  ⟨(c10_unguarded_indexing 2004 (fun _ => Except.ok ([] : List Message))
        [clusterSlotsRequestMsg] [] rfl).1 0 [] rfl (Nat.le_refl 0),
   (c10_unguarded_indexing 2004 (fun _ => Except.ok [slotMapMsg]) [slotMapMsg]
        [slotMapMsg] rfl).2 rfl⟩

/-! ## Tee (`tee.rs`)

The message type is kept abstract (`Msg` with decidable equality standing for
`Message` with its `PartialEq`), since `Message` itself is outside the
provided sources. The two sides of each `tokio::join!` are passed as the
already-awaited results, or as functions from the batch where the submitted
batch matters to the claim. -/

/-- The fixed diagnostic string of `Tee` in `FailOnMismatch` mode
(`tee.rs` line 156). -/
def teeMismatchError : String :=
  "ERR The responses from the Tee subchain and down-chain did not match and behavior is set to fail on mismatch"

/-- `Tee::transform`, `ConsistencyBehavior::Ignore` arm: join the side
submission (`process_request_no_return`) with `call_next_transform`; on a side
error increment `tee_dropped_messages` by 1 (the second component) and trace;
always return the chain result. -/
def teeTransformIgnore {E Msg : Type _} (sideNoReturn : List Msg → Except E Unit)
    (callNext : List Msg → Except E (List Msg)) (msgs : List Msg) :
    Except E (List Msg) × Nat :=
  match sideNoReturn msgs with
  | .error _ => (callNext msgs, 1)
  | .ok _ => (callNext msgs, 0)

/-- `Tee::transform`, `ConsistencyBehavior::FailOnMismatch` arm: propagate
either error (`tee_result?` first, then `chain_result?`); on differing
batches overwrite every chain response with
`to_error_response(teeMismatchError)` (`toError` stands for the
`Message::to_error_response` method, which lives outside the provided
sources); on equal batches return the chain response unchanged. -/
def teeTransformFailOnMismatch {E Msg : Type _} [DecidableEq Msg]
    (toError : Msg → String → Msg)
    (teeResult chainResult : Except E (List Msg)) : Except E (List Msg) :=
  match teeResult with
  | .error e => .error e
  | .ok teeResponse =>
    match chainResult with
    | .error e => .error e
    | .ok chainResponse =>
      if chainResponse = teeResponse then .ok chainResponse
      else .ok (chainResponse.map fun m => toError m teeMismatchError)

/-- `Tee::transform`, `ConsistencyBehavior::SubchainOnMismatch` arm:
`failed_message` is cloned from the wrapper before `call_next_transform`; on a
mismatch it is submitted to the mismatch chain via
`process_request(failed_message, None).await?` (a reply-awaiting submission
whose error propagates). The second component records the batch submitted to
the mismatch chain (`none` when nothing was submitted), so the claims can
speak about what was sent. -/
def teeTransformSubchain {E Msg : Type _} [DecidableEq Msg]
    (sideChain callNext : List Msg → Except E (List Msg))
    (mismatchChain : Option (List Msg → Except E (List Msg)))
    (msgs : List Msg) : Except E (List Msg) × Option (List Msg) :=
  let failedMessage := msgs
  match sideChain msgs with
  | .error e => (.error e, none)
  | .ok teeResponse =>
    match callNext msgs with
    | .error e => (.error e, none)
    | .ok chainResponse =>
      if chainResponse = teeResponse then (.ok chainResponse, none)
      else
        match mismatchChain with
        | none => (.ok chainResponse, none)
        | some mc =>
          match mc failedMessage with
          | .error e => (.error e, some failedMessage)
          | .ok _ => (.ok chainResponse, some failedMessage)

/-- `TeeBuilder::validate`: prefix every error of the mismatch chain's own
validation with two spaces and, when any exist, prepend `"Tee:"`; without a
mismatch chain return the empty list. The mismatch chain's own `validate`
(in `chain.rs`, outside the provided sources) is abstracted by its result
`mismatchChainErrors`. -/
def TeeBuilder.validate (mismatchChainErrors : Option (List String)) : List String :=
  match mismatchChainErrors with
  | some subErrors =>
    let errors := subErrors.map fun x => "  " ++ x
    if errors.isEmpty then errors else "Tee:" :: errors
  | none => []

/-- C1: Tee in FailOnMismatch mode propagates an error of either the side
submission or `call_next_transform`; otherwise, when the side response batch
differs from the main response batch, every message of the returned batch is
overwritten with a protocol-appropriate error response carrying the fixed
diagnostic string, and when the batches are equal the main batch is returned
unchanged. -/
theorem c1_tee_fail_on_mismatch {E Msg : Type _} [DecidableEq Msg]
    (toError : Msg → String → Msg) (teeResult chainResult : Except E (List Msg)) :
    (∀ e, teeResult = .error e →
      teeTransformFailOnMismatch toError teeResult chainResult = .error e) ∧
    (∀ tee e, teeResult = .ok tee → chainResult = .error e →
      teeTransformFailOnMismatch toError teeResult chainResult = .error e) ∧
    (∀ tee chain, teeResult = .ok tee → chainResult = .ok chain → chain = tee →
      teeTransformFailOnMismatch toError teeResult chainResult = .ok chain) ∧
    (∀ tee chain, teeResult = .ok tee → chainResult = .ok chain → chain ≠ tee →
      teeTransformFailOnMismatch toError teeResult chainResult =
        .ok (chain.map fun m => toError m teeMismatchError)) := by
  refine ⟨?_, ?_, ?_, ?_⟩
  · intro e he
    simp only [teeTransformFailOnMismatch, he]
  · intro tee e ht hc
    simp only [teeTransformFailOnMismatch, ht, hc]
  · intro tee chain ht hc heq
    simp only [teeTransformFailOnMismatch, ht, hc, if_pos heq]
  · intro tee chain ht hc hne
    simp only [teeTransformFailOnMismatch, ht, hc, if_neg hne]

theorem c1_witness :
    teeTransformFailOnMismatch (E := String) (fun (m : Nat) (_ : String) => m + 1000)
        (.ok [7]) (.ok [9]) = .ok [1009] ∧
    teeTransformFailOnMismatch (E := String) (fun (m : Nat) (_ : String) => m + 1000)
        (.ok [7]) (.ok [7]) = .ok [7] :=
  ⟨(c1_tee_fail_on_mismatch (fun m _ => m + 1000) (.ok [7]) (.ok [9])).2.2.2 [7] [9]
      rfl rfl (by decide),
   (c1_tee_fail_on_mismatch (fun m _ => m + 1000) (.ok [7]) (.ok [7])).2.2.1 [7] [7]
      rfl rfl rfl⟩

/-- C2 counterexample: the mismatch submission is not fire-and-forget: it is
performed with `process_request(..).await?`, so a failing mismatch chain
makes `Tee::transform` return that error instead of the main response. -/
theorem c2_counterexample :
    ¬ (∀ (sideChain callNext mc : List Nat → Except String (List Nat))
        (msgs tee chain : List Nat),
        sideChain msgs = .ok tee → callNext msgs = .ok chain →
        (teeTransformSubchain sideChain callNext (some mc) msgs).1 = .ok chain) := by
  intro hclaim
  have hmain := hclaim (fun _ => .ok [1]) (fun _ => .ok [2]) (fun _ => .error "boom")
      [0] [1] [2] rfl rfl
  rw [show (teeTransformSubchain (fun _ => Except.ok [1]) (fun _ => Except.ok [2])
      (some fun _ => Except.error "boom") [0]).1 = Except.error "boom" from rfl] at hmain
  exact Except.noConfusion hmain

/-- C2 amended: in SubchainOnMismatch mode, on a mismatch the original
(pre-chain) request batch is submitted to the mismatch chain with
`process_request` (a reply-awaiting submission with no timeout); a failure of
that submission is propagated to the caller, and when it succeeds (or the
batches match, or no mismatch chain is configured) the main response batch is
returned unchanged. -/
theorem c2_tee_subchain_on_mismatch {E Msg : Type _} [DecidableEq Msg]
    (sideChain callNext mc : List Msg → Except E (List Msg))
    (msgs teeResponse chainResponse : List Msg)
    (hside : sideChain msgs = .ok teeResponse)
    (hmain : callNext msgs = .ok chainResponse) :
    (chainResponse = teeResponse →
      teeTransformSubchain sideChain callNext (some mc) msgs = (.ok chainResponse, none)) ∧
    (chainResponse ≠ teeResponse →
      (∀ r, mc msgs = .ok r →
        teeTransformSubchain sideChain callNext (some mc) msgs =
          (.ok chainResponse, some msgs)) ∧
      (∀ e, mc msgs = .error e →
        teeTransformSubchain sideChain callNext (some mc) msgs =
          (.error e, some msgs))) := by
  constructor
  · intro heq
    simp only [teeTransformSubchain, hside, hmain, if_pos heq]
  · intro hne
    constructor
    · intro r hr
      simp only [teeTransformSubchain, hside, hmain, if_neg hne, hr]
    · intro e he
      simp only [teeTransformSubchain, hside, hmain, if_neg hne, he]

theorem c2_witness :
    teeTransformSubchain (E := String) (fun _ => .ok [1]) (fun _ => .ok [2])
        (some fun _ => .ok [5]) [0] = (.ok [2], some [0]) ∧
    teeTransformSubchain (E := String) (fun _ => .ok [2]) (fun _ => .ok [2])
        (some fun _ => .ok [5]) [0] = (.ok [2], none) :=
  ⟨((c2_tee_subchain_on_mismatch (fun _ => .ok [1]) (fun _ => .ok [2]) (fun _ => .ok [5])
      [0] [1] [2] rfl rfl).2 (by decide)).1 [5] rfl,
   (c2_tee_subchain_on_mismatch (fun _ => .ok [2]) (fun _ => .ok [2]) (fun _ => .ok [5])
      [0] [2] [2] rfl rfl).1 rfl⟩

/-- C3 counterexample: the `tee_dropped_messages` counter is incremented by 1
per failed side submission (one per transform call), not by the number of
messages in the batch: for a single submitted batch of three pipelined PINGs
whose side submission fails, the counter increments by 1, not 3. -/
theorem c3_counterexample :
    ¬ (∀ (side : List String → Except String Unit)
        (callNext : List String → Except String (List String))
        (msgs : List String) (e : String), side msgs = .error e →
        (teeTransformIgnore side callNext msgs).2 = msgs.length) := by
  intro hclaim
  have hcount := hclaim (fun _ => .error "ErrSink") (fun l => .ok (l.map fun _ => "+PONG"))
      ["PING", "PING", "PING"] "ErrSink" rfl
  exact absurd hcount (by decide)

/-- C3 amended: Tee in Ignore mode returns exactly the result of
`call_next_transform` for every side chain (succeeding or erroring), and the
`tee_dropped_messages` counter increases by 1 when the side submission errors
(once per submitted batch, regardless of its size) and by 0 otherwise. -/
theorem c3_tee_ignore {E Msg : Type _}
    (side : List Msg → Except E Unit) (callNext : List Msg → Except E (List Msg))
    (msgs : List Msg) :
    (teeTransformIgnore side callNext msgs).1 = callNext msgs ∧
    (∀ e, side msgs = .error e → (teeTransformIgnore side callNext msgs).2 = 1) ∧
    (∀ u, side msgs = .ok u → (teeTransformIgnore side callNext msgs).2 = 0) := by
  refine ⟨?_, ?_, ?_⟩
  · cases h : side msgs <;> rw [teeTransformIgnore, h]
  · intro e he
    rw [teeTransformIgnore, he]
  · intro u hu
    rw [teeTransformIgnore, hu]

theorem c3_witness :
    (teeTransformIgnore (E := String) (fun _ => .error "ErrSink")
        (fun l => .ok (l.map fun _ => "+PONG")) ["PING", "PING", "PING"]).1 =
      .ok ["+PONG", "+PONG", "+PONG"] ∧
    (teeTransformIgnore (E := String) (fun _ => .error "ErrSink")
        (fun l => .ok (l.map fun _ => "+PONG")) ["PING", "PING", "PING"]).2 = 1 :=
  ⟨(c3_tee_ignore (fun _ => .error "ErrSink") (fun l => .ok (l.map fun _ => "+PONG"))
      ["PING", "PING", "PING"]).1,
   (c3_tee_ignore (fun _ => .error "ErrSink") (fun l => .ok (l.map fun _ => "+PONG"))
      ["PING", "PING", "PING"]).2.1 "ErrSink" rfl⟩

/-- C6: for a Tee whose mismatch sub-chain produces k validation errors
(k > 0), `TeeBuilder::validate` returns exactly k+1 strings: the transform's
name `"Tee:"` first, then the k sub-chain errors in order, each indented by
two additional spaces; with no sub-chain errors or no mismatch chain it
returns the empty list. -/
theorem c6_tee_validate (subErrors : List String) (h : subErrors ≠ []) :
    TeeBuilder.validate (some subErrors) =
      "Tee:" :: subErrors.map (fun x => "  " ++ x) ∧
    (TeeBuilder.validate (some subErrors)).length = subErrors.length + 1 ∧
    TeeBuilder.validate none = [] ∧
    TeeBuilder.validate (some []) = [] := by
  have hmap : (subErrors.map fun x => "  " ++ x).isEmpty = false := by
    cases subErrors with
    | nil => exact absurd rfl h
    | cons a t => rfl
  refine ⟨?_, ?_, rfl, rfl⟩
  · rw [TeeBuilder.validate]
    simp only [hmap]
    rfl
  · rw [TeeBuilder.validate]
    simp only [hmap]
    simp [List.length_map]

theorem c6_witness :
    TeeBuilder.validate (some ["mismatch_chain:",
      "  Terminating transform \"NullSink\" is not last in chain. Terminating transform must be last in chain."]) =
      ["Tee:", "  mismatch_chain:",
       "    Terminating transform \"NullSink\" is not last in chain. Terminating transform must be last in chain."] ∧
    (TeeBuilder.validate (some ["mismatch_chain:", "  x"])).length = 3 :=
  ⟨(c6_tee_validate ["mismatch_chain:",
      "  Terminating transform \"NullSink\" is not last in chain. Terminating transform must be last in chain."]
      (by decide)).1,
   (c6_tee_validate ["mismatch_chain:", "  x"] (by decide)).2.1⟩

/-! ## Sampler (`sampler.rs`) -/

/-- `Sampler::transform`: `chance = thread_rng_n(denominator)` (a uniform
draw in `[0, denominator)`, supplied as an input); when `chance < numerator`
the wrapper's clone is submitted through `sample_chain` concurrently with
`call_next_transform` (the side result is only warned about), otherwise only
`call_next_transform` runs. The second component records the batch submitted
to the sample chain (`none` when the unsampled branch ran). -/
def samplerTransform {E Msg : Type _} (numerator chance : Nat)
    (sampleChain callNext : List Msg → Except E (List Msg))
    (msgs : List Msg) : Except E (List Msg) × Option (List Msg) :=
  if chance < numerator then
    match sampleChain msgs, callNext msgs with
    | _, downstream => (downstream, some msgs)
  else (callNext msgs, none)

/-- C8: the Sampler draws `chance` uniform in `[0, denominator)`; when
`chance < numerator` it submits a clone through the side chain and otherwise
does not; in every case (sampled or not, side success or failure — the result
does not depend on the side chain at all) the returned value is exactly the
result of `call_next_transform`; and with numerator = denominator = 1 the
sampled branch is taken on every call. -/
theorem c8_sampler_transform {E Msg : Type _} (numerator denominator chance : Nat)
    (hdraw : chance < denominator)
    (sampleChain callNext : List Msg → Except E (List Msg)) (msgs : List Msg) :
    (samplerTransform numerator chance sampleChain callNext msgs).1 = callNext msgs ∧
    (chance < numerator →
      (samplerTransform numerator chance sampleChain callNext msgs).2 = some msgs) ∧
    (¬ chance < numerator →
      (samplerTransform numerator chance sampleChain callNext msgs).2 = none) ∧
    (∀ sampleChain' : List Msg → Except E (List Msg),
      samplerTransform numerator chance sampleChain callNext msgs =
        samplerTransform numerator chance sampleChain' callNext msgs) ∧
    (numerator = 1 → denominator = 1 → chance < numerator) := by
  refine ⟨?_, ?_, ?_, ?_, ?_⟩
  · by_cases h : chance < numerator
    · simp only [samplerTransform, if_pos h]
    · simp only [samplerTransform, if_neg h]
  · intro h
    simp only [samplerTransform, if_pos h]
  · intro h
    simp only [samplerTransform, if_neg h]
  · intro sampleChain'
    by_cases h : chance < numerator
    · simp only [samplerTransform, if_pos h]
    · simp only [samplerTransform, if_neg h]
  · intro h1 hd
    omega

theorem c8_witness :
    (samplerTransform (E := String) 1 0 (fun _ => .error "side down")
        (fun l => .ok l) ["GET k"]).1 = .ok ["GET k"] ∧
    (samplerTransform (E := String) 1 0 (fun _ => .error "side down")
        (fun l => .ok l) ["GET k"]).2 = some ["GET k"] ∧
    (0 : Nat) < 1 :=
  ⟨(c8_sampler_transform 1 1 0 (by decide) (fun _ => .error "side down")
      (fun l => .ok l) ["GET k"]).1,
   (c8_sampler_transform 1 1 0 (by decide) (fun _ => .error "side down")
      (fun l => .ok l) ["GET k"]).2.1 (by decide),
   (c8_sampler_transform 1 1 0 (by decide) (fun _ => .error "side down")
      (fun l => .ok l) ["GET k"]).2.2.2.2 rfl rfl⟩

/-! ## RedisTimestampTagger (`timestamp_tagging.rs`) -/

/-- Modelled from the spec: `MessageDetails` (in the absent `message.rs`) as
used by `timestamp_tagging.rs`: a message body is a query, a response, or
something else. The query and response payloads are abstract. -/
inductive MessageDetails (Q R : Type _) where
  | Query (qm : Q)
  | Response (qr : R)
  | Other

/-- Modelled from the spec: the `Message` as used by `timestamp_tagging.rs`
(field accesses `message.details` and `message.modified`). -/
structure TMessage (Q R : Type _) where
  details : MessageDetails Q R
  modified : Bool

/-- The request loop of `RedisTimestampTagger::transform`: for each query
message, set `exec_block` when its AST command is EXEC, rewrite the query
through `try_tag_query_message` (abstracted as `tryTag`, returning the
`tagged` flag and the updated query), and update
`tagged_success = tagged_success && tagged`. Returns the rewritten messages
and the two flags. -/
def tagLoop {Q R : Type _} (isExecCmd : Q → Bool) (tryTag : Q → Bool × Q) :
    List (TMessage Q R) → Bool → Bool → List (TMessage Q R) × Bool × Bool
  | [], tagged_success, exec_block => ([], tagged_success, exec_block)
  | m :: rest, tagged_success, exec_block =>
    match m.details with
    | MessageDetails.Query qm =>
      let exec_block' := if isExecCmd qm then true else exec_block
      let tagged := (tryTag qm).1
      let out := tagLoop isExecCmd tryTag rest (tagged_success && tagged) exec_block'
      ({ m with details := MessageDetails.Query (tryTag qm).2 } :: out.1, out.2)
    | _ =>
      let out := tagLoop isExecCmd tryTag rest tagged_success exec_block
      (m :: out.1, out.2)

/-- The response loop of `RedisTimestampTagger::transform`: every response
message is unwrapped (`unwrap_response`, abstracted as `unwrapResp`) and
marked `modified = true`; other messages are untouched. -/
def unwrapAndMark {Q R : Type _} (unwrapResp : R → R) (m : TMessage Q R) : TMessage Q R :=
  match m.details with
  | MessageDetails.Response qr =>
    { details := MessageDetails.Response (unwrapResp qr), modified := true }
  | _ => m

/-- `RedisTimestampTagger::transform`: run the tagging loop with both flags
seeded `false`, call the rest of the chain on the rewritten batch, and on an
`Ok` response unwrap-and-mark every response message when
`tagged_success || exec_block`; errors pass through. -/
def timestampTaggerTransform {Q R E : Type _} (isExecCmd : Q → Bool)
    (tryTag : Q → Bool × Q) (unwrapResp : R → R)
    (callNext : List (TMessage Q R) → Except E (List (TMessage Q R)))
    (msgs : List (TMessage Q R)) : Except E (List (TMessage Q R)) :=
  let out := tagLoop (R := R) isExecCmd tryTag msgs false false
  match callNext out.1 with
  | .ok messages =>
    if out.2.1 || out.2.2 then .ok (messages.map (unwrapAndMark unwrapResp))
    else .ok messages
  | .error e => .error e

theorem tagLoop_false_stays_false {Q R : Type _} (isExecCmd : Q → Bool)
    (tryTag : Q → Bool × Q) (msgs : List (TMessage Q R)) : ∀ eb : Bool,
    (tagLoop isExecCmd tryTag msgs false eb).2.1 = false := by
  induction msgs with
  | nil => intro eb; rfl
  | cons m rest ih =>
    intro eb
    cases hd : m.details with
    | Query qm =>
      simp only [tagLoop, hd, Bool.false_and]
      exact ih _
    | Response qr =>
      simp only [tagLoop, hd]
      exact ih _
    | Other =>
      simp only [tagLoop, hd]
      exact ih _

/-- C7: `tagged_success` starts `false` and is only updated by
`tagged_success && tagged`, so it is still `false` after the loop no matter
how many queries were successfully tagged; consequently the responses are
unwrapped (and marked modified) exactly when an EXEC command was observed
(`exec_block`), and otherwise the downstream response is returned untouched. -/
theorem c7_tagged_success_always_false {Q R E : Type _} (isExecCmd : Q → Bool)
    (tryTag : Q → Bool × Q) (unwrapResp : R → R)
    (callNext : List (TMessage Q R) → Except E (List (TMessage Q R)))
    (msgs : List (TMessage Q R)) :
    (tagLoop (R := R) isExecCmd tryTag msgs false false).2.1 = false ∧
    (∀ messages, callNext (tagLoop (R := R) isExecCmd tryTag msgs false false).1 = .ok messages →
      timestampTaggerTransform isExecCmd tryTag unwrapResp callNext msgs =
        (if (tagLoop (R := R) isExecCmd tryTag msgs false false).2.2 then
          .ok (messages.map (unwrapAndMark unwrapResp))
        else .ok messages)) := by
  have hfalse := tagLoop_false_stays_false (R := R) isExecCmd tryTag msgs false
  refine ⟨hfalse, ?_⟩
  intro messages hcall
  simp only [timestampTaggerTransform, hcall, hfalse, Bool.false_or]

theorem c7_witness :
    (tagLoop (Q := Unit) (R := Unit) (fun _ => false) (fun q => (true, q))
      [⟨MessageDetails.Query (), false⟩, ⟨MessageDetails.Query (), false⟩] false false).2.1 =
      false ∧
    timestampTaggerTransform (Q := Unit) (R := Unit) (E := String)
      (fun _ => false) (fun q => (true, q)) (fun r => r) (fun l => .ok l)
      [⟨MessageDetails.Query (), false⟩, ⟨MessageDetails.Query (), false⟩] =
      .ok [⟨MessageDetails.Query (), false⟩, ⟨MessageDetails.Query (), false⟩] :=
  ⟨(c7_tagged_success_always_false (Q := Unit) (R := Unit) (E := String)
      (fun _ => false) (fun q => (true, q)) (fun r => r) (fun l => .ok l)
      [⟨MessageDetails.Query (), false⟩, ⟨MessageDetails.Query (), false⟩]).1,
   (c7_tagged_success_always_false (Q := Unit) (R := Unit) (E := String)
      (fun _ => false) (fun q => (true, q)) (fun r => r) (fun l => .ok l)
      [⟨MessageDetails.Query (), false⟩, ⟨MessageDetails.Query (), false⟩]).2
      [⟨MessageDetails.Query (), false⟩, ⟨MessageDetails.Query (), false⟩] rfl⟩

end Shotover
